import Mathlib

/-!
Shallow embedding of `pyntc/devices/f5_device.py` (class `F5Device`), the
upgrade-orchestration engine for an F5 TMOS appliance, together with proofs
about the claims of the specification.

Modelling conventions:
* Python exceptions become `Except PyError` results; a function that cannot
  raise keeps a plain codomain.
* Remote-device observations (command output, inventory collections, the
  result of probing the appliance during a polling loop) are passed in as
  explicit values or oracles indexed by probe number.
* `time.time()` / `time.sleep(n)` are modelled by an elapsed-seconds counter
  that advances by exactly the sleep interval per iteration, the idealisation
  the spec itself uses ("N·20s", "K·5s").
* Python floats parsed from the free-space report are modelled as `ℚ`.
* Numeric semantics of `min_space < free_space` when `free_space` is a `str`
  follows Python 3, where the comparison raises `TypeError`.
-/

namespace F5

/-- Python exception values raised by the embedded functions. -/
inductive PyError where
  | valueError (msg : String)
  | typeError (msg : String)
  | runtimeError (msg : String)
  | ioError (msg : String)
deriving DecidableEq, Repr

/-- The value held by the local variable `free_space` at the end of
`_get_free_space` (f5_device.py lines 35-57): `None` when the bash command
produced no output, the raw `commandResult` string when the regex
`.*\s\/\s(\d+\.?\d+) GB free` did not match, and the parsed float when it did. -/
inductive FreeSpaceResult where
  | noOutput
  | raw (s : String)
  | value (q : ℚ)
deriving DecidableEq, Repr

/-- `_get_free_space` (lines 35-57) with the regex-and-float step abstracted as
`parse` and the command output abstracted as `output` (`Option.none` models a
falsy output object). -/
def get_free_space (parse : String → Option ℚ) : Option String → FreeSpaceResult
  | Option.none => FreeSpaceResult.noOutput
  | Option.some s =>
    match parse s with
    | Option.some q => FreeSpaceResult.value q
    | Option.none => FreeSpaceResult.raw s

/-- `_check_free_space` (lines 59-72).  `if not free_space:` is Python
truthiness: it raises `ValueError` for `None`, the empty string and `0.0`.
A leftover raw string falls into `min_space < free_space`, an `int`/`str`
comparison, which raises `TypeError` in Python 3.  A nonzero parsed value
returns `False` when `min_space < free_space` and `True` when
`min_space >= free_space`. -/
def check_free_space (min_space : ℚ) : FreeSpaceResult → Except PyError Bool
  | FreeSpaceResult.noOutput =>
      Except.error (PyError.valueError "Could not get free space")
  | FreeSpaceResult.raw s =>
      if s = "" then Except.error (PyError.valueError "Could not get free space")
      else Except.error (PyError.typeError "unorderable types: int and str")
  | FreeSpaceResult.value q =>
      if q = 0 then Except.error (PyError.valueError "Could not get free space")
      else if min_space < q then Except.ok false
      else Except.ok true

/-- The loop of `_wait_for_image_installed` (lines 225-238): while the elapsed
time `t` is below `timeout`, sleep 20 seconds, then probe
`_image_installed`; return `True` on the first true probe, `False` once the
deadline check fails.  `installed k` is the outcome of the k-th probe
(1-indexed); probe `k` happens at elapsed time `20·k`. -/
def installLoop (installed : Nat → Bool) (timeout t k : Nat) : Bool :=
  if h : t < timeout then
    if installed k then true else installLoop installed timeout (t + 20) (k + 1)
  else false
termination_by timeout - t
decreasing_by omega

/-- `_wait_for_image_installed` (lines 225-238), starting with zero elapsed
time before the first probe. -/
def wait_for_image_installed (installed : Nat → Bool) (timeout : Nat) : Bool :=
  installLoop installed timeout 0 1

/-- The loop of `_wait_for_device_reboot` (lines 265-283): while the elapsed
time is below `timeout`, sleep 5 seconds, then try to reconnect, load the
volume and test its `active` flag; any exception is swallowed by
`except Exception: pass` and the loop continues.  `probe k` is the outcome of
the k-th reconnect-and-load attempt: `Option.none` when it raised,
`Option.some b` when it loaded a volume whose `active is True` test gives
`b`.  Only `Option.some true` returns `True`. -/
def rebootLoop (probe : Nat → Option Bool) (timeout t k : Nat) : Bool :=
  if h : t < timeout then
    if probe k = Option.some true then true
    else rebootLoop probe timeout (t + 5) (k + 1)
  else false
termination_by timeout - t
decreasing_by omega

/-- `_wait_for_device_reboot` (lines 265-283), default `timeout` supplied by
the caller (`reboot` passes the default 600). -/
def wait_for_device_reboot (probe : Nat → Option Bool) (timeout : Nat) : Bool :=
  rebootLoop probe timeout 0 1

/-- `set_boot_options` (lines 376-389): run `_check_free_space(min_space=6)`
(its exceptions propagate), raise `RuntimeError` "Not enough free space" when
the returned boolean is falsy, otherwise issue the install command
(fire-and-forget, not observable in the return value) and wait for the
installation with the default timeout 900. -/
def set_boot_options (fs : FreeSpaceResult) (installed : Nat → Bool) :
    Except PyError Unit :=
  match check_free_space 6 fs with
  | Except.error e => Except.error e
  | Except.ok free_space =>
      if free_space = false then
        Except.error (PyError.runtimeError "Not enough free space to install OS")
      else if wait_for_image_installed installed 900 then Except.ok ()
      else Except.error (PyError.runtimeError "Installation failed")

/-- A software volume as the inventory query reports it (f5_device.py uses
`name`, `version`, `basebuild`, `status` and the optional `active` attribute;
`active = Option.none` models a volume object without the attribute, which
`hasattr` filters out). -/
structure Volume where
  name : String
  version : String
  basebuild : String
  status : String
  active : Option Bool
deriving DecidableEq, Repr

/-- A software image as the inventory query reports it (`fullPath`, `version`,
`build`). -/
structure Image where
  fullPath : String
  version : String
  build : String
deriving DecidableEq, Repr

/-- `_get_active_volume` (lines 152-162): return the name of the first volume
whose `active` attribute exists and `is True`; `None` when there is none. -/
def get_active_volume (volumes : List Volume) : Option String :=
  volumes.findSome? fun v =>
    if v.active = Option.some true then Option.some v.name else Option.none

/-- The image-scanning loop of `_image_installed` (lines 208-214): the local
variable `image` is overwritten on every `fullPath` match, so the loop keeps
the last matching image. -/
def image_search (images : List Image) (image_name : String) : Option Image :=
  images.foldl
    (fun acc i => if i.fullPath = image_name then Option.some i else acc)
    Option.none

/-- `_image_installed` (lines 202-223): find the image by `fullPath`; if there
is one, return `True` exactly when some volume matches on name, version,
basebuild and has status "complete"; otherwise `False`. -/
def image_installed (images : List Image) (volumes : List Volume)
    (image_name volume : String) : Bool :=
  match image_search images image_name with
  | Option.some image =>
      volumes.any fun v =>
        v.name == volume && v.version == image.version &&
          v.basebuild == image.build && v.status == "complete"
  | Option.none => false

/-- The reboot command issued to the appliance: `exec_cmd('reboot')` with or
without a `volume=` argument. -/
inductive RebootCmd where
  | plain
  | toVolume (name : String)
deriving DecidableEq, Repr

/-- Python truthiness of the `volume_name` argument (`None` and the empty
string are falsy). -/
def optStrTruthy : Option String → Bool
  | Option.none => false
  | Option.some s => s != ""

/-- `_reboot_to_volume` (lines 253-263): `if volume_name:` issue the reboot
command naming the volume, else the plain reboot command. -/
def reboot_to_volume (volume_name : Option String) : RebootCmd :=
  if optStrTruthy volume_name then RebootCmd.toVolume (volume_name.getD "")
  else RebootCmd.plain

/-- The command-selection step of `reboot` (lines 360-366): when the active
volume equals the requested volume the argument passed on is `None`,
otherwise the requested volume. -/
def select_reboot_volume (volumes : List Volume) (volume : Option String) :
    Option String :=
  if get_active_volume volumes = volume then Option.none else volume

/-- The reboot command that `reboot` (lines 360-366) ends up issuing. -/
def reboot_command (volumes : List Volume) (volume : Option String) : RebootCmd :=
  reboot_to_volume (select_reboot_volume volumes volume)

/-- `reboot` (lines 360-369): select and issue the reboot command, then wait
for the device with `_wait_for_device_reboot` (default timeout 600); raise
`RuntimeError` when the wait reports failure.  The issued command is returned
on success so that the choice is observable. -/
def reboot (volumes : List Volume) (volume : Option String)
    (probe : Nat → Option Bool) : Except PyError RebootCmd :=
  if wait_for_device_reboot probe 600 then Except.ok (reboot_command volumes volume)
  else Except.error (PyError.runtimeError "Reboot to volume failed")

/-- One POST request issued by `_upload_image`: its byte payload, the declared
`Content-Range` fields `start`, `rangeEnd` (inclusive) and `total`. -/
structure UploadRequest where
  body : List Nat
  first : Nat
  rangeEnd : Nat
  total : Nat
deriving DecidableEq, Repr

/-- The upload loop of `_upload_image` (lines 300-316): read up to `C` bytes,
stop on an empty read, otherwise record the request and continue.  `pos` is
the file cursor (`fileobj.tell()` before the read), `strt` the `start`
variable; `end` is clamped to the file size `S` when `tell` is below the
chunk size. -/
def uploadLoop (C S : Nat) (rest : List Nat) (pos strt : Nat) :
    List UploadRequest :=
  if h : rest.take C = [] then []
  else
    { body := rest.take C, first := strt,
      rangeEnd :=
        (if pos + (rest.take C).length < C then S
         else pos + (rest.take C).length) - 1,
      total := S } ::
      uploadLoop C S (rest.drop C) (pos + (rest.take C).length)
        (strt + (rest.take C).length)
termination_by rest.length
decreasing_by
  simp only [List.take_eq_nil_iff] at h
  push_neg at h
  have h1 : rest ≠ [] := h.2
  have h2 : C ≠ 0 := h.1
  have h3 : 0 < rest.length := List.length_pos.mpr h1
  simp only [List.length_drop]
  omega

/-- `_upload_image` (lines 285-316): chunk size 512 KiB, total size the length
of the file, cursor and start both beginning at 0. -/
def upload_image (file : List Nat) : List UploadRequest :=
  uploadLoop (512 * 1024) file.length file 0 0

/-- The hashing loop of `_file_copy_local_md5` (lines 99-107): feed the file to
the digest in blocks of `bs` bytes; `acc` is the byte stream fed to the md5
object so far. -/
def md5Loop (bs : Nat) (acc rest : List Nat) : List Nat :=
  if h : rest.take bs = [] then acc
  else md5Loop bs (acc ++ rest.take bs) (rest.drop bs)
termination_by rest.length
decreasing_by
  simp only [List.take_eq_nil_iff] at h
  push_neg at h
  have h3 : 0 < rest.length := List.length_pos.mpr h.2
  simp only [List.length_drop]
  omega

/-- `_file_copy_local_md5` (lines 99-107) with `_file_copy_local_file_exists`
(lines 95-97): the local filesystem is `fs` (`Option.none` for a missing
path), and the md5 hex digest of a byte stream is the abstract `md5hex`.
When the file exists the digest of the streamed blocks (blocksize `2 ^ 20`)
is returned; when it does not, the function falls off the end and returns
`None` — it raises nothing. -/
def file_copy_local_md5 (md5hex : List Nat → String)
    (fs : String → Option (List Nat)) (filepath : String) :
    Except PyError (Option String) :=
  match fs filepath with
  | Option.some data =>
      Except.ok (Option.some (md5hex (md5Loop (2 ^ 20) [] data)))
  | Option.none => Except.ok Option.none

/-- Python `str.splitlines` restricted to newline separators: split on
newline, with no trailing empty line for a trailing newline and `[]` for the
empty string. -/
def splitlines (s : String) : List String :=
  let parts := s.splitOn "\n"
  if parts.getLast? = Option.some "" then parts.dropLast else parts

/-- `_image_exists` (lines 122-139): `None` when the `unix_ls` command output
is falsy (the early `return None`), otherwise `True`/`False` by membership of
the image name in the split listing. -/
def image_exists (output : Option String) (image_name : String) : Option Bool :=
  match output with
  | Option.none => Option.none
  | Option.some listing =>
      if image_name ∈ splitlines listing then Option.some true
      else Option.some false

/-- Python truthiness of an `Option Bool` result (`None` is falsy). -/
def pyBool : Option Bool → Bool
  | Option.none => false
  | Option.some b => b

/-- `_image_match` (lines 240-251): `if self._image_exists(...)` is a
truthiness test, so `None` takes the same branch as `False`; `md5_matches` is
the outcome of `_check_md5sum` on the joined path. -/
def image_match (output : Option String) (image_name : String)
    (md5_matches : Bool) : Bool :=
  if pyBool (image_exists output image_name) then
    if md5_matches then true else false
  else false

/-- `file_copy_remote_exists` (lines 346-358) with `dest=None`: returns
`False` when `_image_match` is falsy, `True` otherwise. -/
def file_copy_remote_exists (output : Option String) (src_basename : String)
    (md5_matches : Bool) : Bool :=
  if image_match output src_basename md5_matches = false then false else true

/-! ### Helper lemmas about the polling loops -/

/-- Characterisation of the install-wait loop: starting from elapsed time `t`
and probe number `k`, it returns `true` exactly when some probe `j ≥ k`,
reached while the elapsed time `t + 20·(j - k)` is still below the deadline,
observes the installation. -/
theorem installLoop_eq_true_iff (installed : Nat → Bool) (timeout : Nat) :
    ∀ (n t k : Nat), timeout - t ≤ n →
      (installLoop installed timeout t k = true ↔
        ∃ j, k ≤ j ∧ t + 20 * (j - k) < timeout ∧ installed j = true) := by
  intro n
  induction n with
  | zero =>
    intro t k hn
    rw [installLoop]
    have ht : ¬ t < timeout := by omega
    rw [dif_neg ht]
    constructor
    · intro hfalse
      exact absurd hfalse (by simp)
    · rintro ⟨j, -, hj2, -⟩
      omega
  | succ n ih =>
    intro t k hn
    rw [installLoop]
    by_cases ht : t < timeout
    · rw [dif_pos ht]
      by_cases hk : installed k = true
      · rw [if_pos hk]
        constructor
        · intro _
          exact ⟨k, le_refl k, by omega, hk⟩
        · intro _
          rfl
      · rw [if_neg hk]
        rw [ih (t + 20) (k + 1) (by omega)]
        constructor
        · rintro ⟨j, hj1, hj2, hj3⟩
          exact ⟨j, by omega, by omega, hj3⟩
        · rintro ⟨j, hj1, hj2, hj3⟩
          have hjk : j ≠ k := by
            intro heq
            rw [heq] at hj3
            exact hk hj3
          exact ⟨j, by omega, by omega, hj3⟩
    · rw [dif_neg ht]
      constructor
      · intro hfalse
        exact absurd hfalse (by simp)
      · rintro ⟨j, -, hj2, -⟩
        omega

/-- `_wait_for_image_installed` returns `true` exactly when some probe `j ≥ 1`
with `20·(j-1)` seconds elapsed before the deadline check preceding it
observes the installation. -/
theorem wait_for_image_installed_eq_true_iff (installed : Nat → Bool)
    (timeout : Nat) :
    wait_for_image_installed installed timeout = true ↔
      ∃ j, 1 ≤ j ∧ 20 * (j - 1) < timeout ∧ installed j = true := by
  unfold wait_for_image_installed
  rw [installLoop_eq_true_iff installed timeout timeout 0 1 (by omega)]
  constructor
  · rintro ⟨j, hj1, hj2, hj3⟩
    exact ⟨j, hj1, by omega, hj3⟩
  · rintro ⟨j, hj1, hj2, hj3⟩
    exact ⟨j, hj1, by omega, hj3⟩

/-- Characterisation of the reboot-wait loop, as for the install loop: it
returns `true` exactly when some reconnect-and-load probe `j ≥ k`, reached
while `t + 5·(j - k)` is below the deadline, loads the volume and finds it
active. -/
theorem rebootLoop_eq_true_iff (probe : Nat → Option Bool) (timeout : Nat) :
    ∀ (n t k : Nat), timeout - t ≤ n →
      (rebootLoop probe timeout t k = true ↔
        ∃ j, k ≤ j ∧ t + 5 * (j - k) < timeout ∧ probe j = Option.some true) := by
  intro n
  induction n with
  | zero =>
    intro t k hn
    rw [rebootLoop]
    have ht : ¬ t < timeout := by omega
    rw [dif_neg ht]
    constructor
    · intro hfalse
      exact absurd hfalse (by simp)
    · rintro ⟨j, -, hj2, -⟩
      omega
  | succ n ih =>
    intro t k hn
    rw [rebootLoop]
    by_cases ht : t < timeout
    · rw [dif_pos ht]
      by_cases hk : probe k = Option.some true
      · rw [if_pos hk]
        constructor
        · intro _
          exact ⟨k, le_refl k, by omega, hk⟩
        · intro _
          rfl
      · rw [if_neg hk]
        rw [ih (t + 5) (k + 1) (by omega)]
        constructor
        · rintro ⟨j, hj1, hj2, hj3⟩
          exact ⟨j, by omega, by omega, hj3⟩
        · rintro ⟨j, hj1, hj2, hj3⟩
          have hjk : j ≠ k := by
            intro heq
            rw [heq] at hj3
            exact hk hj3
          exact ⟨j, by omega, by omega, hj3⟩
    · rw [dif_neg ht]
      constructor
      · intro hfalse
        exact absurd hfalse (by simp)
      · rintro ⟨j, -, hj2, -⟩
        omega

/-- `_wait_for_device_reboot` returns `true` exactly when some probe `j ≥ 1`
reached before the deadline loads the volume and finds it active. -/
theorem wait_for_device_reboot_eq_true_iff (probe : Nat → Option Bool)
    (timeout : Nat) :
    wait_for_device_reboot probe timeout = true ↔
      ∃ j, 1 ≤ j ∧ 5 * (j - 1) < timeout ∧ probe j = Option.some true := by
  unfold wait_for_device_reboot
  rw [rebootLoop_eq_true_iff probe timeout timeout 0 1 (by omega)]
  constructor
  · rintro ⟨j, hj1, hj2, hj3⟩
    exact ⟨j, hj1, by omega, hj3⟩
  · rintro ⟨j, hj1, hj2, hj3⟩
    exact ⟨j, hj1, by omega, hj3⟩

/-- The md5 streaming loop feeds exactly the remaining bytes to the digest:
with a positive blocksize, the stream fed after processing `rest` on top of
the already-fed `acc` is `acc ++ rest`. -/
theorem md5Loop_eq_append (bs : Nat) (hbs : 1 ≤ bs) :
    ∀ (n : Nat) (acc rest : List Nat), rest.length ≤ n →
      md5Loop bs acc rest = acc ++ rest := by
  intro n
  induction n with
  | zero =>
    intro acc rest hn
    have hrest : rest = [] := List.length_eq_zero.mp (by omega)
    subst hrest
    rw [md5Loop]
    simp
  | succ n ih =>
    intro acc rest hn
    rw [md5Loop]
    by_cases h : rest.take bs = []
    · rw [dif_pos h]
      simp only [List.take_eq_nil_iff] at h
      rcases h with h | h
      · omega
      · simp [h]
    · rw [dif_neg h]
      have hrest : rest ≠ [] := by
        intro hr
        simp [hr] at h
      have hlen : (rest.drop bs).length ≤ n := by
        have h3 : 0 < rest.length := List.length_pos.mpr hrest
        simp only [List.length_drop]
        omega
      rw [ih (acc ++ rest.take bs) (rest.drop bs) hlen]
      rw [List.append_assoc, List.take_append_drop]

/-! ### Helper lemmas about the upload loop -/

/-- The upload loop stops exactly when the read returns no bytes. -/
theorem uploadLoop_eq_nil (C S : Nat) (rest : List Nat) (pos strt : Nat)
    (h : rest.take C = []) : uploadLoop C S rest pos strt = [] := by
  rw [uploadLoop, dif_pos h]

/-- Number of requests: the loop issues `ceil(len/C)` requests. -/
theorem uploadLoop_length (C : Nat) (hC : 1 ≤ C) (S : Nat) :
    ∀ (n : Nat) (rest : List Nat) (pos strt : Nat), rest.length ≤ n →
      (uploadLoop C S rest pos strt).length = (rest.length + C - 1) / C := by
  intro n
  induction n with
  | zero =>
    intro rest pos strt hn
    have hrest : rest = [] := List.length_eq_zero.mp (by omega)
    subst hrest
    rw [uploadLoop_eq_nil C S [] pos strt (by simp)]
    simp [Nat.div_eq_of_lt (by omega : C - 1 < C)]
  | succ n ih =>
    intro rest pos strt hn
    by_cases h : rest.take C = []
    · rw [uploadLoop_eq_nil C S rest pos strt h]
      simp only [List.take_eq_nil_iff] at h
      have hrest : rest = [] := by
        rcases h with h | h
        · omega
        · exact h
      subst hrest
      simp [Nat.div_eq_of_lt (by omega : C - 1 < C)]
    · rw [uploadLoop, dif_neg h]
      have hrest : rest ≠ [] := by
        intro hr
        simp [hr] at h
      have hL : 1 ≤ rest.length := List.length_pos.mpr hrest
      have hdrop : (rest.drop C).length = rest.length - C := by
        simp [List.length_drop]
      rw [List.length_cons, ih (rest.drop C) _ _ (by omega)]
      rw [hdrop]
      by_cases hLC : rest.length ≤ C
      · have h0 : rest.length - C = 0 := by omega
        rw [h0]
        rw [Nat.div_eq_of_lt (by omega : 0 + C - 1 < C)]
        rw [Nat.div_eq_of_lt_le (by omega : 1 * C ≤ rest.length + C - 1)
          (by omega : rest.length + C - 1 < (1 + 1) * C)]
      · have hsplit : rest.length + C - 1 = (rest.length - C + C - 1) + C := by
          omega
        rw [hsplit, Nat.add_div_right _ (by omega : 0 < C)]

/-- Round trip: the bodies of the issued requests concatenate back to the
uploaded bytes. -/
theorem uploadLoop_join (C : Nat) (hC : 1 ≤ C) (S : Nat) :
    ∀ (n : Nat) (rest : List Nat) (pos strt : Nat), rest.length ≤ n →
      ((uploadLoop C S rest pos strt).map UploadRequest.body).flatten = rest := by
  intro n
  induction n with
  | zero =>
    intro rest pos strt hn
    have hrest : rest = [] := List.length_eq_zero.mp (by omega)
    subst hrest
    rw [uploadLoop_eq_nil C S [] pos strt (by simp)]
    simp
  | succ n ih =>
    intro rest pos strt hn
    by_cases h : rest.take C = []
    · rw [uploadLoop_eq_nil C S rest pos strt h]
      simp only [List.take_eq_nil_iff] at h
      rcases h with h | h
      · omega
      · simp [h]
    · rw [uploadLoop, dif_neg h]
      have hrest : rest ≠ [] := by
        intro hr
        simp [hr] at h
      have hL : 1 ≤ rest.length := List.length_pos.mpr hrest
      have hdrop : (rest.drop C).length ≤ n := by
        simp only [List.length_drop]
        omega
      rw [List.map_cons, List.flatten_cons, ih (rest.drop C) _ _ hdrop]
      exact List.take_append_drop C rest

/-- Every request except the last carries exactly `C` bytes. -/
theorem uploadLoop_dropLast_all (C : Nat) (hC : 1 ≤ C) (S : Nat) :
    ∀ (n : Nat) (rest : List Nat) (pos strt : Nat), rest.length ≤ n →
      ((uploadLoop C S rest pos strt).dropLast.all
        fun r => r.body.length == C) = true := by
  intro n
  induction n with
  | zero =>
    intro rest pos strt hn
    have hrest : rest = [] := List.length_eq_zero.mp (by omega)
    subst hrest
    rw [uploadLoop_eq_nil C S [] pos strt (by simp)]
    simp
  | succ n ih =>
    intro rest pos strt hn
    by_cases h : rest.take C = []
    · rw [uploadLoop_eq_nil C S rest pos strt h]
      simp
    · rw [uploadLoop, dif_neg h]
      have hrest : rest ≠ [] := by
        intro hr
        simp [hr] at h
      have hL : 1 ≤ rest.length := List.length_pos.mpr hrest
      rcases htail : uploadLoop C S (rest.drop C) (pos + (rest.take C).length)
          (strt + (rest.take C).length) with _ | ⟨b, bs⟩
      · simp
      · have htake : (rest.drop C).take C ≠ [] := by
          intro hnil
          rw [uploadLoop_eq_nil C S (rest.drop C) _ _ hnil] at htail
          exact List.cons_ne_nil b bs htail.symm
        have hdropne : rest.drop C ≠ [] := by
          intro hnil
          rw [hnil] at htake
          simp at htake
        have hCL : C < rest.length := by
          by_contra hcon
          have : (rest.drop C).length = 0 := by
            simp only [List.length_drop]
            omega
          exact hdropne (List.length_eq_zero.mp this)
        have hbody : (rest.take C).length = C := by
          simp [List.length_take]
          omega
        have hih := ih (rest.drop C) (pos + (rest.take C).length)
          (strt + (rest.take C).length) (by simp only [List.length_drop]; omega)
        rw [htail] at hih
        rw [List.dropLast_cons_of_ne_nil (List.cons_ne_nil b bs)]
        rw [List.all_cons]
        simp only [hbody, beq_self_eq_true, Bool.true_and]
        exact hih

/-- The last request declares range end `S - 1`, provided the cursor
invariant `pos + rest.length = S` holds (it does from the initial call on). -/
theorem uploadLoop_getLast_rangeEnd (C : Nat) (hC : 1 ≤ C) (S : Nat) :
    ∀ (n : Nat) (rest : List Nat) (pos strt : Nat), rest.length ≤ n →
      pos + rest.length = S →
      ((uploadLoop C S rest pos strt).getLast?.all
        fun r => r.rangeEnd == S - 1) = true := by
  intro n
  induction n with
  | zero =>
    intro rest pos strt hn hinv
    have hrest : rest = [] := List.length_eq_zero.mp (by omega)
    subst hrest
    rw [uploadLoop_eq_nil C S [] pos strt (by simp)]
    simp
  | succ n ih =>
    intro rest pos strt hn hinv
    by_cases h : rest.take C = []
    · rw [uploadLoop_eq_nil C S rest pos strt h]
      simp
    · rw [uploadLoop, dif_neg h]
      have hrest : rest ≠ [] := by
        intro hr
        simp [hr] at h
      have hL : 1 ≤ rest.length := List.length_pos.mpr hrest
      rcases htail : uploadLoop C S (rest.drop C) (pos + (rest.take C).length)
          (strt + (rest.take C).length) with _ | ⟨b, bs⟩
      · have hdropnil : rest.drop C = [] := by
          by_contra hne
          have htk : (rest.drop C).take C ≠ [] := by
            intro hnil
            simp only [List.take_eq_nil_iff] at hnil
            rcases hnil with h0 | h0
            · omega
            · exact hne h0
          rw [uploadLoop] at htail
          rw [dif_neg htk] at htail
          exact List.cons_ne_nil _ _ htail
        have hLC : rest.length ≤ C := by
          by_contra hcon
          have : (rest.drop C).length = 0 := by rw [hdropnil]; rfl
          simp only [List.length_drop] at this
          omega
        have htake_all : rest.take C = rest := List.take_of_length_le hLC
        have htell : pos + (rest.take C).length = S := by
          rw [htake_all]
          exact hinv
        simp only [List.getLast?_singleton, Option.all_some]
        rw [htell]
        by_cases hS : S < C
        · simp [hS]
        · simp [hS]
      · have htake : (rest.drop C).take C ≠ [] := by
          intro hnil
          rw [uploadLoop_eq_nil C S (rest.drop C) _ _ hnil] at htail
          exact List.cons_ne_nil b bs htail.symm
        have hdropne : rest.drop C ≠ [] := by
          intro hnil
          rw [hnil] at htake
          simp at htake
        have hCL : C < rest.length := by
          by_contra hcon
          have : (rest.drop C).length = 0 := by
            simp only [List.length_drop]
            omega
          exact hdropne (List.length_eq_zero.mp this)
        have hinv2 : pos + (rest.take C).length + (rest.drop C).length = S := by
          simp only [List.length_take, List.length_drop]
          omega
        have hih := ih (rest.drop C) (pos + (rest.take C).length)
          (strt + (rest.take C).length) (by simp only [List.length_drop]; omega)
          hinv2
        rw [htail] at hih
        rw [List.getLast?_cons_cons]
        exact hih

/-! ### Helper lemmas about the image search of `_image_installed` -/

/-- Whatever the loop accumulator holds, a `some` result of the image scan is
either a member of the list whose `fullPath` matches, or the accumulator
itself. -/
theorem image_search_foldl_eq_some (nm : String) (images : List Image) :
    ∀ (acc : Option Image) (i : Image),
      images.foldl
        (fun acc j => if j.fullPath = nm then Option.some j else acc) acc =
        Option.some i →
      (i ∈ images ∧ i.fullPath = nm) ∨ acc = Option.some i := by
  induction images with
  | nil =>
    intro acc i h
    exact Or.inr h
  | cons hd tl ih =>
    intro acc i h
    simp only [List.foldl_cons] at h
    rcases ih _ i h with ⟨hmem, hpath⟩ | hacc
    · exact Or.inl ⟨List.mem_cons_of_mem hd hmem, hpath⟩
    · by_cases hc : hd.fullPath = nm
      · rw [if_pos hc] at hacc
        have hi : hd = i := Option.some.inj hacc
        subst hi
        exact Or.inl ⟨List.mem_cons_self hd tl, hc⟩
      · rw [if_neg hc] at hacc
        exact Or.inr hacc

/-- The image scan yields `none` exactly when the accumulator is `none` and no
member matches. -/
theorem image_search_foldl_eq_none (nm : String) (images : List Image) :
    ∀ (acc : Option Image),
      (images.foldl
        (fun acc j => if j.fullPath = nm then Option.some j else acc) acc =
        Option.none) ↔
      (acc = Option.none ∧ ∀ i ∈ images, i.fullPath ≠ nm) := by
  induction images with
  | nil =>
    intro acc
    simp
  | cons hd tl ih =>
    intro acc
    simp only [List.foldl_cons]
    rw [ih]
    constructor
    · rintro ⟨hacc, hall⟩
      by_cases hc : hd.fullPath = nm
      · rw [if_pos hc] at hacc
        exact absurd hacc (by simp)
      · rw [if_neg hc] at hacc
        refine ⟨hacc, ?_⟩
        intro i hi
        rcases List.mem_cons.mp hi with rfl | hi
        · exact hc
        · exact hall i hi
    · rintro ⟨hacc, hall⟩
      have hc : hd.fullPath ≠ nm := hall hd (List.mem_cons_self hd tl)
      rw [if_neg hc]
      exact ⟨hacc, fun i hi => hall i (List.mem_cons_of_mem hd hi)⟩

/-- A `some` result of `image_search` is a member of the list whose
`fullPath` matches. -/
theorem image_search_eq_some_mem (images : List Image) (nm : String)
    (i : Image) (h : image_search images nm = Option.some i) :
    i ∈ images ∧ i.fullPath = nm := by
  unfold image_search at h
  rcases image_search_foldl_eq_some nm images Option.none i h with hgood | habs
  · exact hgood
  · exact absurd habs (by simp)

/-- A `none` result of `image_search` means no listed image matches. -/
theorem image_search_none_all (images : List Image) (nm : String)
    (h : image_search images nm = Option.none) :
    ∀ i ∈ images, i.fullPath ≠ nm := by
  unfold image_search at h
  exact ((image_search_foldl_eq_none nm images Option.none).mp h).2

/-- `_image_installed` is `False` when the image scan finds nothing. -/
theorem image_installed_search_none (images : List Image)
    (volumes : List Volume) (img vol : String)
    (h : image_search images img = Option.none) :
    image_installed images volumes img vol = false := by
  unfold image_installed
  rw [h]

/-- `_image_installed` reduces to the volume scan once the image scan found
an image. -/
theorem image_installed_search_some (images : List Image)
    (volumes : List Volume) (img vol : String) (i : Image)
    (h : image_search images img = Option.some i) :
    image_installed images volumes img vol =
      volumes.any (fun v =>
        v.name == vol && v.version == i.version &&
          v.basebuild == i.build && v.status == "complete") := by
  unfold image_installed
  rw [h]

/-! ### Sample device state used by witnesses and counterexamples -/

/-- A one-image inventory, as in the source comment
`fullPath = u'BIGIP-11.6.0.0.0.401.iso'`. -/
def sampleImages : List Image :=
  [{ fullPath := "BIGIP-11.6.0.0.0.401.iso", version := "11.6.0",
     build := "0.0.401" }]

/-- A two-volume inventory whose first volume is the active one. -/
def sampleVolumes : List Volume :=
  [{ name := "HD1.1", version := "12.0.0", basebuild := "0.0.606",
     status := "complete", active := Option.some true },
   { name := "HD1.2", version := "11.6.0", basebuild := "0.0.401",
     status := "complete", active := Option.some false }]

/-! ### Claims -/

/-- Claim C1 (code_bug evidence).  `set_boot_options` raises the
not-enough-free-space error exactly on the wrong side of the threshold: with
parsed free space 7.10 GB (the spec's own example of sufficient space,
7.10 ≥ 6) it raises `RuntimeError` "Not enough free space to install OS",
while with free space 5 GB (< 6) it proceeds to install and succeeds.  The
cause: `_check_free_space` returns `False` for sufficient space, but
`set_boot_options` treats the result as an is-space-available boolean
(`if not free_space: raise`), inverting the gate. -/
theorem C1_free_space_gate_inverted :
    set_boot_options (FreeSpaceResult.value (71 / 10)) (fun _ => true) =
      Except.error (PyError.runtimeError "Not enough free space to install OS")
    ∧ set_boot_options (FreeSpaceResult.value 5) (fun _ => true) =
      Except.ok () := by
  have h1 : check_free_space 6 (FreeSpaceResult.value (71 / 10)) =
      Except.ok false := by
    simp only [check_free_space]
    rw [if_neg (by norm_num : ¬ (71 / 10 : ℚ) = 0),
      if_pos (by norm_num : (6 : ℚ) < 71 / 10)]
  have h2 : check_free_space 6 (FreeSpaceResult.value 5) = Except.ok true := by
    simp only [check_free_space]
    rw [if_neg (by norm_num : ¬ (5 : ℚ) = 0), if_neg (by norm_num : ¬ (6 : ℚ) < 5)]
  have hwait : wait_for_image_installed (fun _ => true) 900 = true :=
    (wait_for_image_installed_eq_true_iff _ _).mpr
      ⟨1, le_refl 1, by norm_num, rfl⟩
  constructor
  · simp only [set_boot_options]
    rw [h1]
    rfl
  · simp only [set_boot_options]
    rw [h2, hwait]
    rfl

/-- Claim C2, counterexample.  At the boundary `free = min_space = 6` the
code reports `True`, i.e. insufficient, not `False` (sufficient) as the claim
states. -/
theorem C2_boundary_counterexample :
    check_free_space 6 (FreeSpaceResult.value 6) = Except.ok true
    ∧ (Except.ok true : Except PyError Bool) ≠ Except.ok false := by
  constructor
  · simp only [check_free_space]
    rw [if_neg (by norm_num : ¬ (6 : ℚ) = 0), if_neg (by norm_num : ¬ (6 : ℚ) < 6)]
  · simp

/-- Claim C2, amended.  For a parsed nonzero free-space value `f`,
`_check_free_space(min_space=m)` returns `False` (sufficient) exactly when
`m < f` strictly, and `True` (insufficient) exactly when `f ≤ m`; in
particular at the boundary `f = m` it reports the space as insufficient. -/
theorem C2_threshold_strict (m f : ℚ) (hf : f ≠ 0) :
    (check_free_space m (FreeSpaceResult.value f) = Except.ok false ↔ m < f)
    ∧ (check_free_space m (FreeSpaceResult.value f) = Except.ok true ↔ f ≤ m) := by
  simp only [check_free_space]
  rw [if_neg hf]
  by_cases h : m < f
  · rw [if_pos h]
    constructor
    · simp [h]
    · simp [not_le.mpr h]
  · rw [if_neg h]
    constructor
    · simp [h]
    · simp [not_lt.mp h]

/-- Witness for C2_threshold_strict at `m = 6`, `f = 7`. -/
theorem C2_threshold_strict_witness :
    ((7 : ℚ) ≠ 0)
    ∧ ((check_free_space 6 (FreeSpaceResult.value 7) = Except.ok false ↔
          (6 : ℚ) < 7)
      ∧ (check_free_space 6 (FreeSpaceResult.value 7) = Except.ok true ↔
          (7 : ℚ) ≤ 6)) :=
  ⟨by norm_num, C2_threshold_strict 6 7 (by norm_num)⟩

/-- Claim C3, counterexample.  With the install observed complete on the
first probe (`N = 1`) and `timeout = 20`, we have `N·20 ≥ timeout`, yet the
wait returns success rather than timing out: the deadline check precedes the
20-second sleep, so probe `N` is reached whenever `(N-1)·20 < timeout`. -/
theorem C3_deadline_counterexample :
    wait_for_image_installed (fun k => decide (1 ≤ k)) 20 = true
    ∧ 1 * 20 ≥ 20 := by
  constructor
  · exact (wait_for_image_installed_eq_true_iff _ _).mpr
      ⟨1, le_refl 1, by norm_num, by decide⟩
  · omega

/-- Claim C3, amended.  If the install is observed complete only on the N-th
20-second probe, the wait succeeds exactly when `(N-1)·20 < timeout` (the
deadline check happens before each sleep) and times out exactly when
`(N-1)·20 ≥ timeout`; success is returned on the first true observation. -/
theorem C3_poll_deadline (N timeout : Nat) (hN : 1 ≤ N) :
    (wait_for_image_installed (fun k => decide (N ≤ k)) timeout = true ↔
      20 * (N - 1) < timeout)
    ∧ (wait_for_image_installed (fun k => decide (N ≤ k)) timeout = false ↔
      timeout ≤ 20 * (N - 1)) := by
  have h1 : wait_for_image_installed (fun k => decide (N ≤ k)) timeout = true ↔
      20 * (N - 1) < timeout := by
    rw [wait_for_image_installed_eq_true_iff]
    constructor
    · rintro ⟨j, hj1, hj2, hj3⟩
      have hNj : N ≤ j := of_decide_eq_true hj3
      omega
    · intro h
      exact ⟨N, hN, by omega, decide_eq_true (le_refl N)⟩
  have h2 : (wait_for_image_installed (fun k => decide (N ≤ k)) timeout = false)
      ↔ ¬ (wait_for_image_installed (fun k => decide (N ≤ k)) timeout = true) := by
    cases wait_for_image_installed (fun k => decide (N ≤ k)) timeout <;> simp
  refine ⟨h1, ?_⟩
  rw [h2, h1]
  omega

/-- Witness for C3_poll_deadline at `N = 2`, `timeout = 900`. -/
theorem C3_poll_deadline_witness :
    (1 ≤ 2)
    ∧ ((wait_for_image_installed (fun k => decide (2 ≤ k)) 900 = true ↔
          20 * (2 - 1) < 900)
      ∧ (wait_for_image_installed (fun k => decide (2 ≤ k)) 900 = false ↔
          900 ≤ 20 * (2 - 1))) :=
  ⟨by decide, C3_poll_deadline 2 900 (by decide)⟩

/-- Claim C4.  During reboot polling every exception of the
reconnect-and-load step is swallowed and treated as "not yet active": the
wait behaves identically when each raising probe is replaced by a non-raising
probe reporting not-active.  The wait succeeds exactly when some probe
reached before the 600-second deadline (probe `j` runs once `5·(j-1) < 600`)
observes the volume active, and `reboot` raises its failure error exactly
when the wait reports failure, i.e. only on deadline expiry without an active
observation. -/
theorem C4_reboot_error_swallowing (volumes : List Volume)
    (volume : Option String) (probe : Nat → Option Bool) :
    (wait_for_device_reboot probe 600 =
      wait_for_device_reboot
        (fun k => Option.some (decide (probe k = Option.some true))) 600)
    ∧ (wait_for_device_reboot probe 600 = true ↔
        ∃ j, 1 ≤ j ∧ 5 * (j - 1) < 600 ∧ probe j = Option.some true)
    ∧ (reboot volumes volume probe =
        Except.error (PyError.runtimeError "Reboot to volume failed") ↔
        wait_for_device_reboot probe 600 = false) := by
  have hmain := wait_for_device_reboot_eq_true_iff probe 600
  have hmapped := wait_for_device_reboot_eq_true_iff
    (fun k => Option.some (decide (probe k = Option.some true))) 600
  simp only [Option.some.injEq, decide_eq_true_eq] at hmapped
  refine ⟨?_, hmain, ?_⟩
  · have hiff : (wait_for_device_reboot probe 600 = true) ↔
        (wait_for_device_reboot
          (fun k => Option.some (decide (probe k = Option.some true))) 600 =
          true) := by
      rw [hmain, hmapped]
    cases hw1 : wait_for_device_reboot probe 600 <;>
      cases hw2 : wait_for_device_reboot
        (fun k => Option.some (decide (probe k = Option.some true))) 600 <;>
      simp_all
  · by_cases hw : wait_for_device_reboot probe 600 = true
    · simp [reboot, hw]
    · have hw' : wait_for_device_reboot probe 600 = false := by
        cases h : wait_for_device_reboot probe 600
        · rfl
        · exact absurd h hw
      simp [reboot, hw']

/-- Claim C5.  Uploading a file of `S` bytes with chunk size `C = 512 KiB`
issues `ceil(S/C)` sequential POST requests; every request except the last
carries exactly `C` bytes; the last request's declared inclusive range end is
`S - 1`; and the request bodies concatenate, in order, back to the file. -/
theorem C5_upload_chunking (file : List Nat) :
    (upload_image file).length = (file.length + 512 * 1024 - 1) / (512 * 1024)
    ∧ ((upload_image file).dropLast.all
        fun r => r.body.length == 512 * 1024) = true
    ∧ ((upload_image file).getLast?.all
        fun r => r.rangeEnd == file.length - 1) = true
    ∧ ((upload_image file).map UploadRequest.body).flatten = file := by
  unfold upload_image
  refine ⟨uploadLoop_length (512 * 1024) (by norm_num) file.length
      file.length file 0 0 (le_refl _),
    uploadLoop_dropLast_all (512 * 1024) (by norm_num) file.length
      file.length file 0 0 (le_refl _),
    uploadLoop_getLast_rangeEnd (512 * 1024) (by norm_num) file.length
      file.length file 0 0 (le_refl _) (by omega),
    uploadLoop_join (512 * 1024) (by norm_num) file.length
      file.length file 0 0 (le_refl _)⟩

/-- Claim C6.  When `fullPath` is a unique key of the image inventory (as the
data model states), `_image_installed(img, vol)` is `True` exactly when an
image with `fullPath = img` is listed and some volume named `vol` matches its
version and build and has status "complete"; any single mismatch yields
`False`. -/
theorem C6_image_installed_iff (images : List Image) (volumes : List Volume)
    (img vol : String)
    (huniq : ∀ i1 ∈ images, ∀ i2 ∈ images, i1.fullPath = i2.fullPath → i1 = i2) :
    image_installed images volumes img vol = true ↔
      ∃ i ∈ images, i.fullPath = img ∧ ∃ v ∈ volumes,
        v.name = vol ∧ v.version = i.version ∧ v.basebuild = i.build ∧
          v.status = "complete" := by
  cases hsearch : image_search images img with
  | none =>
    rw [image_installed_search_none images volumes img vol hsearch]
    constructor
    · intro h
      exact absurd h (by simp)
    · rintro ⟨i, hi, hpath, -⟩
      exact absurd hpath (image_search_none_all images img hsearch i hi)
  | some i =>
    rw [image_installed_search_some images volumes img vol i hsearch]
    obtain ⟨him, hip⟩ := image_search_eq_some_mem images img i hsearch
    constructor
    · intro hany
      rw [List.any_eq_true] at hany
      rcases hany with ⟨v, hv, hcond⟩
      simp only [Bool.and_eq_true, beq_iff_eq] at hcond
      exact ⟨i, him, hip, v, hv, hcond.1.1.1, hcond.1.1.2, hcond.1.2, hcond.2⟩
    · rintro ⟨i2, hi2, hip2, v, hv, h1, h2, h3, h4⟩
      have heq : i2 = i := huniq i2 hi2 i him (by rw [hip2, hip])
      subst heq
      rw [List.any_eq_true]
      refine ⟨v, hv, ?_⟩
      simp only [Bool.and_eq_true, beq_iff_eq]
      exact ⟨⟨⟨h1, h2⟩, h3⟩, h4⟩

/-- Witness for C6_image_installed_iff on the sample inventory. -/
theorem C6_image_installed_iff_witness :
    (∀ i1 ∈ sampleImages, ∀ i2 ∈ sampleImages, i1.fullPath = i2.fullPath →
      i1 = i2)
    ∧ (image_installed sampleImages sampleVolumes "BIGIP-11.6.0.0.0.401.iso"
        "HD1.2" = true ↔
      ∃ i ∈ sampleImages, i.fullPath = "BIGIP-11.6.0.0.0.401.iso" ∧
        ∃ v ∈ sampleVolumes, v.name = "HD1.2" ∧ v.version = i.version ∧
          v.basebuild = i.build ∧ v.status = "complete") :=
  ⟨by decide, C6_image_installed_iff sampleImages sampleVolumes
    "BIGIP-11.6.0.0.0.401.iso" "HD1.2" (by decide)⟩

/-- Claim C7, counterexample.  With the empty string as target volume — a
target that is not the active volume — the code issues the plain reboot, not
a reboot naming the target: `if volume_name:` is a Python truthiness test and
the empty string is falsy. -/
theorem C7_empty_name_counterexample :
    reboot_command sampleVolumes (Option.some "") = RebootCmd.plain
    ∧ get_active_volume sampleVolumes ≠ Option.some "" := by
  constructor
  · decide
  · decide

/-- Claim C7, amended.  For every nonempty target volume name, `reboot`
issues the plain reboot exactly when the target is already the active volume
and the reboot-to-volume command naming the target otherwise; the branch
compares the active volume's name to the target. -/
theorem C7_reboot_in_place (volumes : List Volume) (v : String)
    (hv : v ≠ "") :
    (get_active_volume volumes = Option.some v →
      reboot_command volumes (Option.some v) = RebootCmd.plain)
    ∧ (get_active_volume volumes ≠ Option.some v →
      reboot_command volumes (Option.some v) = RebootCmd.toVolume v) := by
  constructor
  · intro ha
    unfold reboot_command select_reboot_volume
    rw [if_pos ha]
    rfl
  · intro ha
    unfold reboot_command select_reboot_volume
    rw [if_neg ha]
    simp [reboot_to_volume, optStrTruthy, hv]

/-- Witness for C7_reboot_in_place on the sample inventory with target
"HD1.2". -/
theorem C7_reboot_in_place_witness :
    ("HD1.2" ≠ "")
    ∧ ((get_active_volume sampleVolumes = Option.some "HD1.2" →
        reboot_command sampleVolumes (Option.some "HD1.2") = RebootCmd.plain)
      ∧ (get_active_volume sampleVolumes ≠ Option.some "HD1.2" →
        reboot_command sampleVolumes (Option.some "HD1.2") =
          RebootCmd.toVolume "HD1.2")) :=
  ⟨by decide, C7_reboot_in_place sampleVolumes "HD1.2" (by decide)⟩

/-- Claim C8, counterexample.  For a path that names no local file the local
checksum operation returns the normal value `None` — it does not raise a
file-not-found error (the function has no raise path at all). -/
theorem C8_missing_file_counterexample :
    file_copy_local_md5 (fun _ => "d41d8cd98f00b204e9800998ecf8427e")
        (fun _ => Option.none) "/images/missing.iso" = Except.ok Option.none
    ∧ (file_copy_local_md5 (fun _ => "d41d8cd98f00b204e9800998ecf8427e")
        (fun _ => Option.none) "/images/missing.iso").isOk = true :=
  ⟨rfl, rfl⟩

/-- Claim C8, amended.  The local checksum operation never raises: it returns
`None` for a missing path, and for an existing file it returns the digest of
the full byte stream, fed to the hash in fixed 1 MiB blocks whose
concatenation is the file. -/
theorem C8_local_md5 (md5hex : List Nat → String)
    (fs : String → Option (List Nat)) (filepath : String) :
    file_copy_local_md5 md5hex fs filepath =
      Except.ok ((fs filepath).map md5hex) := by
  unfold file_copy_local_md5
  cases hf : fs filepath with
  | none => rfl
  | some data =>
    show Except.ok (Option.some (md5hex (md5Loop (2 ^ 20) [] data))) =
      Except.ok (Option.map md5hex (Option.some data))
    rw [md5Loop_eq_append (2 ^ 20) (by norm_num) data.length [] data
      (le_refl _)]
    simp

/-- Claim C10.  When the image-store listing command produces no output,
`_image_exists` returns `None` rather than a boolean; the public
`file_copy_remote_exists` then takes the falsy branch and reports `False`,
the same answer as for a listing that does not contain the image; and
whenever the listing produced output, `_image_exists` returns a proper
boolean. -/
theorem C10_empty_listing_absent (image_name : String) (md5_matches : Bool) :
    image_exists Option.none image_name = Option.none
    ∧ file_copy_remote_exists Option.none image_name md5_matches = false
    ∧ (∀ listing : String,
        (image_exists (Option.some listing) image_name).isSome = true)
    ∧ (∀ listing : String, image_name ∉ splitlines listing →
        file_copy_remote_exists (Option.some listing) image_name md5_matches =
          file_copy_remote_exists Option.none image_name md5_matches) := by
  refine ⟨rfl, rfl, ?_, ?_⟩
  · intro listing
    unfold image_exists
    by_cases h : image_name ∈ splitlines listing <;> simp [h]
  · intro listing hmem
    unfold file_copy_remote_exists image_match image_exists pyBool
    simp [hmem]

/-- Claim C9, counterexample.  A successfully parsed free-space value of 0 GB
is insufficient space, yet `_check_free_space` raises the `ValueError` (the
parsed float 0.0 is falsy) instead of returning the boolean `True`; and a
nonempty report that the regex cannot parse raises a `TypeError` from the
`int`-vs-`str` comparison, not the could-not-get-free-space error. -/
theorem C9_parse_outcomes_counterexample :
    check_free_space 6 (FreeSpaceResult.value 0) =
      Except.error (PyError.valueError "Could not get free space")
    ∧ check_free_space 6 (FreeSpaceResult.raw "garbage output") =
      Except.error (PyError.typeError "unorderable types: int and str") := by
  constructor
  · simp [check_free_space]
  · simp only [check_free_space]
    rw [if_neg (by decide : ¬ ("garbage output" = ""))]

/-- Claim C9, amended.  `_check_free_space` raises `ValueError`
"Could not get free space" when the report command produced no output, when
the result string is empty, and also when the report parses to the value 0;
a nonempty unparsable report raises `TypeError` (the raw string reaches the
numeric comparison); a boolean is returned exactly for nonzero parsed values,
insufficiency included. -/
theorem C9_unparsable_report (m : ℚ) (parse : String → Option ℚ) (r : String) :
    (check_free_space m (get_free_space parse Option.none) =
      Except.error (PyError.valueError "Could not get free space"))
    ∧ (parse r = Option.none → r ≠ "" →
        check_free_space m (get_free_space parse (Option.some r)) =
          Except.error (PyError.typeError "unorderable types: int and str"))
    ∧ (parse r = Option.none → r = "" →
        check_free_space m (get_free_space parse (Option.some r)) =
          Except.error (PyError.valueError "Could not get free space"))
    ∧ (∀ q : ℚ, parse r = Option.some q → q = 0 →
        check_free_space m (get_free_space parse (Option.some r)) =
          Except.error (PyError.valueError "Could not get free space"))
    ∧ (∀ q : ℚ, parse r = Option.some q → q ≠ 0 →
        check_free_space m (get_free_space parse (Option.some r)) =
          Except.ok (decide (q ≤ m))) := by
  refine ⟨rfl, ?_, ?_, ?_, ?_⟩
  · intro hp hr
    have hgf : get_free_space parse (Option.some r) = FreeSpaceResult.raw r := by
      simp only [get_free_space]
      rw [hp]
    rw [hgf]
    simp only [check_free_space]
    rw [if_neg hr]
  · intro hp hr
    have hgf : get_free_space parse (Option.some r) = FreeSpaceResult.raw r := by
      simp only [get_free_space]
      rw [hp]
    rw [hgf]
    simp only [check_free_space]
    rw [if_pos hr]
  · intro q hp hq
    have hgf : get_free_space parse (Option.some r) =
        FreeSpaceResult.value q := by
      simp only [get_free_space]
      rw [hp]
    rw [hgf]
    simp only [check_free_space]
    rw [if_pos hq]
  · intro q hp hq
    have hgf : get_free_space parse (Option.some r) =
        FreeSpaceResult.value q := by
      simp only [get_free_space]
      rw [hp]
    rw [hgf]
    simp only [check_free_space]
    rw [if_neg hq]
    by_cases h : m < q
    · rw [if_pos h]
      have hd : decide (q ≤ m) = false := decide_eq_false (not_le.mpr h)
      rw [hd]
    · rw [if_neg h]
      have hd : decide (q ≤ m) = true := decide_eq_true (not_lt.mp h)
      rw [hd]

end F5
